import Mathlib

/-!
Verification of the Mock-Signal-Server test façade (`src/api/server.ts`) and
its request schemas (`src/data/schemas.ts`), shallowly embedded in Lean.

JavaScript `Map` objects are embedded as association lists with
overwrite-on-set semantics; `Set` objects as lists used as sets; byte
buffers as `List Nat`; promise queues (`PromiseQueue` from `src/util`,
whose source is not in the repository snapshot and is therefore modelled
from the spec) as FIFO lists carrying a timeout field, where a `shift` on
an empty queue models blocking that ends in `QueueTimeout`
(`Option.none`). Thrown JavaScript errors become `Except.error` or
`Option.none`; an error is raised before any state mutation exactly when
the source throws before mutating, so an error result carries no state.
-/

namespace MockSignal

/-- JS `Map.get`: first binding for the key, if any. -/
def mapGet [DecidableEq κ] (k : κ) (m : List (κ × α)) : Option α :=
  (m.find? (fun p => p.1 = k)).map (fun p => p.2)

/-- JS `Map.set`: bind the key, overwriting any earlier binding. -/
def mapSet [DecidableEq κ] (k : κ) (v : α) (m : List (κ × α)) : List (κ × α) :=
  (k, v) :: m.filter (fun p => ¬(p.1 = k))

/-- JS `Map.delete`: drop every binding for the key. -/
def mapDelete [DecidableEq κ] (k : κ) (m : List (κ × α)) : List (κ × α) :=
  m.filter (fun p => ¬(p.1 = k))

/-- `PRIMARY_DEVICE_ID` from `src/constants` (not in the snapshot).
Modelled from the spec: DeviceId `1` is reserved for the primary device. -/
def PRIMARY_DEVICE_ID : Nat := 1

/-- `DEFAULT_API_TIMEOUT` (src/api/server.ts line 104). -/
def DEFAULT_API_TIMEOUT : Nat := 60000

/-- The user-facing `Config`, every field optional. Only the field the
claims inspect is carried. -/
structure Config where
  timeout : Option Nat := none
  deriving DecidableEq

/-- `StrictConfig` after the constructor's defaulting spread. -/
structure StrictConfig where
  timeout : Nat
  deriving DecidableEq

/-- The constructor merge `{ timeout: DEFAULT_API_TIMEOUT, ...config }`:
an omitted `timeout` falls back to `DEFAULT_API_TIMEOUT`. -/
def mkStrictConfig (config : Config) : StrictConfig :=
  { timeout := config.timeout.getD DEFAULT_API_TIMEOUT }

/-- A `PromiseQueue` (src/util, not in the snapshot). Modelled from the
spec: a FIFO with `push`/`shift`/`pushAndWait`, every operation subject to
the timeout the queue was constructed with. -/
structure PQueue (α : Type) where
  timeout : Nat
  items : List α
  deriving DecidableEq

/-- `queue.push(v)`: append at the tail. -/
def PQueue.push (q : PQueue α) (v : α) : PQueue α :=
  { q with items := q.items ++ [v] }

/-- `new PromiseQueue({ timeout: cfg.timeout })` as performed by
`Server.createQueue`. -/
def createQueueCfg (cfg : StrictConfig) : PQueue α :=
  { timeout := cfg.timeout, items := [] }

/-- A registered `Device` (src/data/device, not in the snapshot), carrying
the fields `src/api/server.ts` reads: `uuid`, `pni`, `number`, `deviceId`
and `registrationId`. -/
structure DeviceT where
  uuid : String
  pni : String
  number : String
  deviceId : Nat
  registrationId : Nat
  deriving DecidableEq

/-- The provisioning result key `uuid.registrationId`
(src/api/server.ts lines 414 and 443). -/
def deviceKey (d : DeviceT) : String :=
  d.uuid ++ "." ++ toString d.registrationId

/-- The value of `encryptAttachment` (src/crypto, not in the snapshot). -/
structure AttachmentData where
  blob : List Nat
  size : Nat
  deriving DecidableEq

/-- Modelled from the spec: `encrypt_attachment(plaintext)` from the
crypto facade (src/crypto is not in the snapshot). The AES-CBC + HMAC
ciphertext under a random key is abstracted as the plaintext itself; only
which bytes were stored matters to the claims, never their encoding. -/
def encryptAttachment (plaintext : List Nat) : AttachmentData :=
  { blob := plaintext, size := plaintext.length }

/-- An `AttachmentPointer` protobuf, as far as the claims inspect it. -/
structure AttachmentPointer where
  cdnKey : String
  size : Nat
  deriving DecidableEq

/-- Modelled from the spec: `attachmentToPointer` (src/data/attachment is
not in the snapshot) builds the pointer referencing the stored blob by its
CDN key. -/
def attachmentToPointer (cdnKey : String) (data : AttachmentData) :
    AttachmentPointer :=
  { cdnKey := cdnKey, size := data.size }

/-- A `PrimaryDevice` (src/api/primary-device, not in the snapshot),
carrying the constructor arguments the claims inspect. -/
structure PrimaryDeviceT where
  device : DeviceT
  profileName : String
  contacts : AttachmentPointer
  groups : AttachmentPointer
  deriving DecidableEq

/-- `EnvelopeType` from `src/server/base` (not in the snapshot). Only the
sealed-sender distinction matters to `handleMessage`. -/
inductive EnvelopeType
  | ciphertext
  | prekeyBundle
  | plaintext
  | sealedSender
  deriving DecidableEq

/-- The effect `handleMessage` has when it forwards an envelope: the call
`primary.handleEnvelope(source, envelopeType, encrypted)`. -/
structure Delivered where
  primary : PrimaryDeviceT
  source : Option DeviceT
  envelopeType : EnvelopeType
  encrypted : List Nat
  deriving DecidableEq

/-- The mutable fields of the `Server` façade that the claims inspect:
`config`, `https` (as the bound port), `emptyAttachment`, the base
server's CDN blob store, `primaryDevices`, `knownNumbers`, the
`provisionQueue` and `manifestQueueByUuid`. -/
structure ServerSt where
  config : StrictConfig
  httpsPort : Option Nat
  emptyAttachment : Option AttachmentPointer
  blobStore : List (String × List Nat)
  primaryDevices : List (String × PrimaryDeviceT)
  knownNumbers : List String
  provisionQueue : PQueue Unit
  manifestQueueByUuid : List (String × PQueue Nat)
  deriving DecidableEq

/-- `Server.createQueue`: a fresh `PromiseQueue` with the configured
timeout (src/api/server.ts lines 472-476). -/
def Server.createQueue (s : ServerSt) : PQueue α :=
  createQueueCfg s.config

/-- The `Server` constructor (src/api/server.ts lines 121-148): merge the
config with its defaults and create the provision queue. -/
def mkServer (config : Config) : ServerSt :=
  let strict := mkStrictConfig config
  { config := strict
    httpsPort := none
    emptyAttachment := none
    blobStore := []
    primaryDevices := []
    knownNumbers := []
    provisionQueue := createQueueCfg strict
    manifestQueueByUuid := [] }

/-- `Server.listen` (src/api/server.ts lines 150-184): refuse when already
listening; otherwise encrypt a zero-length buffer, store it in the CDN
blob store under a fresh key (`emptyCDNKey`, generated by the base
server's `storeAttachment`, which is not in the snapshot), record the
pointer as `emptyAttachment`, and start listening on the port. -/
def Server.listen (s : ServerSt) (port : Nat) (emptyCDNKey : String) :
    Except String ServerSt :=
  if s.httpsPort.isSome then
    Except.error ("Already listening")
  else
    let emptyData := encryptAttachment []
    Except.ok { s with
      blobStore := mapSet emptyCDNKey emptyData.blob s.blobStore
      emptyAttachment := some (attachmentToPointer emptyCDNKey emptyData)
      httpsPort := some port }

/-- `Server.close` (src/api/server.ts lines 186-195): refuse when not
listening; otherwise close the socket. The source never clears
`this.https`, so the façade state is unchanged. -/
def Server.close (s : ServerSt) : Except String ServerSt :=
  match s.httpsPort with
  | none => Except.error ("Not listening")
  | some _ => Except.ok s

/-- `Server.address` (src/api/server.ts lines 197-207): refuse when not
listening; otherwise return the bound address. -/
def Server.address (s : ServerSt) : Except String Nat :=
  match s.httpsPort with
  | none => Except.error ("Not listening")
  | some port => Except.ok port

/-- The `do version = await queue.shift() while (afterVersion !==
undefined && version <= afterVersion)` loop of `waitForStorageManifest`
(src/api/server.ts lines 227-230) over the queued versions; `none` models
the shift blocking on an exhausted queue until `QueueTimeout`. -/
def manifestShiftLoop : Option Nat → List Nat → Option (Nat × List Nat)
  | _, [] => none
  | none, v :: rest => some (v, rest)
  | some afterVersion, v :: rest =>
    if v ≤ afterVersion then manifestShiftLoop (some afterVersion) rest
    else some (v, rest)

/-- The versions currently queued for a uuid in `manifestQueueByUuid`. -/
def manifestItems (uuid : String) (s : ServerSt) : List Nat :=
  match mapGet uuid s.manifestQueueByUuid with
  | some q => q.items
  | none => []

/-- `Server.waitForStorageManifest` (src/api/server.ts lines 217-231):
fetch or create the device's manifest queue, then shift until a version
passes the `afterVersion` guard. -/
def Server.waitForStorageManifest (s : ServerSt) (device : DeviceT)
    (afterVersion : Option Nat) : Option (Nat × ServerSt) :=
  let queue := match mapGet device.uuid s.manifestQueueByUuid with
    | some q => q
    | none => Server.createQueue s
  match manifestShiftLoop afterVersion queue.items with
  | none => none
  | some (version, rest) =>
    some (version, { s with
      manifestQueueByUuid :=
        mapSet device.uuid { queue with items := rest }
          s.manifestQueueByUuid })

/-- `Server.onStorageManifestUpdate` (src/api/server.ts lines 453-466):
fetch or create the device's manifest queue and push the new version. -/
def Server.onStorageManifestUpdate (s : ServerSt) (device : DeviceT)
    (version : Nat) : ServerSt :=
  let queue := match mapGet device.uuid s.manifestQueueByUuid with
    | some q => q
    | none => Server.createQueue s
  { s with
    manifestQueueByUuid :=
      mapSet device.uuid (queue.push version) s.manifestQueueByUuid }

/-- `Server.generateNumber` (src/api/server.ts lines 478-486): draw from
`generateRandomE164` until the number is not in `knownNumbers`, then
record and return it. The draws of `generateRandomE164` (src/util, not in
the snapshot) are supplied as a list; exhausting it models the loop
never finding a fresh number. -/
def Server.generateNumber :
    List String → ServerSt → Option (String × ServerSt)
  | [], _ => none
  | candidate :: rest, s =>
    if candidate ∈ s.knownNumbers then
      Server.generateNumber rest s
    else
      some (candidate, { s with knownNumbers := candidate :: s.knownNumbers })

/-- Modelled from the spec: `serializeContacts` (src/data/contacts is not
in the snapshot) serializes contact records to an opaque buffer; its bytes
are irrelevant to every claim and are abstracted as the empty buffer. -/
def serializeContacts (_contacts : List PrimaryDeviceT) : List Nat := []

/-- The fresh values `createPrimaryDevice` obtains from the environment:
the successive `generateRandomE164` draws, the generated uuid and pni, the
generated registration id, and the CDN key `storeAttachment` assigns to
the contacts blob. -/
structure FreshIds where
  numberDraws : List String
  uuid : String
  pni : String
  registrationId : Nat
  contactsCDNKey : String
  deriving DecidableEq

/-- `Server.createPrimaryDevice` (src/api/server.ts lines 237-293):
generate a fresh number, register the primary device (deviceId 1), fail
unless the empty attachment was pre-allocated, store the contacts blob,
and build the `PrimaryDevice` whose `groups` attachment is the
pre-allocated `emptyAttachment`; record it in `primaryDevices` under both
the number and the uuid. -/
def Server.createPrimaryDevice (s : ServerSt) (profileName : String)
    (contacts : List PrimaryDeviceT) (fresh : FreshIds) :
    Option (PrimaryDeviceT × ServerSt) :=
  match Server.generateNumber fresh.numberDraws s with
  | none => none
  | some (number, s1) =>
    let device : DeviceT :=
      { uuid := fresh.uuid
        pni := fresh.pni
        number := number
        deviceId := PRIMARY_DEVICE_ID
        registrationId := fresh.registrationId }
    match s1.emptyAttachment with
    | none => none
    | some emptyAttachment =>
      let contactsAttachment := encryptAttachment (serializeContacts contacts)
      let s2 := { s1 with
        blobStore :=
          mapSet fresh.contactsCDNKey contactsAttachment.blob s1.blobStore }
      let primary : PrimaryDeviceT :=
        { device := device
          profileName := profileName
          contacts :=
            attachmentToPointer fresh.contactsCDNKey contactsAttachment
          groups := emptyAttachment }
      some (primary, { s2 with
        primaryDevices :=
          mapSet fresh.uuid primary
            (mapSet number primary s2.primaryDevices) })

/-- One `createPrimaryDevice` call: profile name, contacts, fresh ids. -/
structure CreateCall where
  profileName : String
  contacts : List PrimaryDeviceT
  fresh : FreshIds
  deriving DecidableEq

/-- Run a sequence of `createPrimaryDevice` calls, collecting the E164
numbers of the devices actually created. -/
def runCreates : ServerSt → List CreateCall → List String
  | _, [] => []
  | s, c :: rest =>
    match Server.createPrimaryDevice s c.profileName c.contacts c.fresh with
    | none => runCreates s rest
    | some (p, s1) => p.device.number :: runCreates s1 rest

/-- `Server.handleMessage` (src/api/server.ts lines 374-399): assert the
envelope has a source unless sealed-sender, drop the message unless the
target is a primary device with a registered `PrimaryDevice`, and
otherwise forward it to `primary.handleEnvelope`. The forwarding is
returned as a `Delivered` value; no field of the server is mutated. -/
def Server.handleMessage (s : ServerSt) (source : Option DeviceT)
    (envelopeType : EnvelopeType) (target : DeviceT)
    (encrypted : List Nat) : Except String (Option Delivered × ServerSt) :=
  if source.isNone ∧ ¬(envelopeType = EnvelopeType.sealedSender) then
    Except.error ("No source for non-sealed sender envelope")
  else if ¬(target.deviceId = PRIMARY_DEVICE_ID) then
    Except.ok (none, s)
  else
    match mapGet target.uuid s.primaryDevices with
    | none => Except.ok (none, s)
    | some primary =>
      Except.ok (some
        { primary := primary
          source := source
          envelopeType := envelopeType
          encrypted := encrypted }, s)

/-!
## Request schemas (`src/data/schemas.ts`)

The zod schemas are embedded as validators on already-JSON-decoded values.
`z.string().transform(fromURLSafeBase64)` never rejects (Node's
`Buffer.from(_, 'base64')` is total), so the only constraints of
`UsernameReservationSchema` are the array bounds, and the only constraints
of `GroupStateSchema` beyond field typing are `version: z.literal(0)` and
`members: z.unknown().array().min(1)`.
-/

/-- `UsernameReservationSchema` (src/data/schemas.ts lines 94-101):
`usernameHashes` is an array of base64url strings with `.min(1).max(20)`.
Parsing a well-typed body returns the hashes exactly when the length
bounds hold. -/
def UsernameReservationSchema.parse (usernameHashes : List String) :
    Option (List String) :=
  if 1 ≤ usernameHashes.length ∧ usernameHashes.length ≤ 20 then
    some usernameHashes
  else
    none

/-- The group state submitted to `PUT /v1/groups`, with the fields
`GroupStateSchema` inspects. `members` elements are `z.unknown()`, embedded
as an opaque `Unit`. -/
structure GroupStateBody where
  publicKey : List Nat
  version : Nat
  acAttributes : Nat
  acMembers : Nat
  acAddFromInviteLink : Nat
  members : List Unit
  deriving DecidableEq

/-- `GroupStateSchema` (src/data/schemas.ts lines 83-92):
`version: z.literal(0)` and `members: z.unknown().array().min(1)`; the
other fields only have to be well-typed, which the embedding's types
already guarantee. -/
def GroupStateSchema.parse (g : GroupStateBody) : Option GroupStateBody :=
  if g.version = 0 ∧ 1 ≤ g.members.length then some g else none

/-!
## Provisioning rendezvous (src/api/server.ts lines 316-451)

`getProvisioningResponse` creates a `resultQueue`, hands the harness a
`complete` callback that ends in `await resultQueue.shift()`, and installs
the queue at `provisionResultQueueByCode[code]`. `provisionDevice` moves
the queue to `provisionResultQueueByKey[uuid.registrationId]`, and
`updateDeviceKeys` is the only place a `Device` is ever pushed into a
result queue. The interleaving of these handlers with the harness is
embedded as a trace of events over an explicit state; result queues get
numeric identities because the JS code shares them by object reference
across the two maps.
-/

/-- The provisioning-relevant state: the allocated result queues (timeout
and FIFO contents), the two maps holding them, and the set of devices for
which `updateDeviceKeys` has run. -/
structure PState where
  cfgTimeout : Nat
  nextQueueId : Nat
  resultQueues : List (Nat × (Nat × List DeviceT))
  byCode : List (String × Nat)
  byKey : List (String × Nat)
  updatedKeys : List DeviceT
  deriving DecidableEq

/-- The initial provisioning state of a server with config timeout
`cfgTimeout`: no queues, empty maps, no keys uploaded. -/
def pInit (cfgTimeout : Nat) : PState :=
  { cfgTimeout := cfgTimeout
    nextQueueId := 0
    resultQueues := []
    byCode := []
    byKey := []
    updatedKeys := [] }

/-- The events of the provisioning rendezvous. -/
inductive PEvent
  /-- A run of `getProvisioningResponse` through installing
  `provisionResultQueueByCode[code] = resultQueue` (lines 319-349): the
  fresh result queue is allocated with the configured timeout. -/
  | getProvisioningResponse (provisioningCode : String)
  /-- A run of `provisionDevice` (lines 425-451): assert the code is
  bound, consume it, and move the queue under `uuid.registrationId`. -/
  | provisionDevice (provisioningCode : String) (device : DeviceT)
  /-- A run of `updateDeviceKeys` (lines 408-423): record the keys, and
  if a result queue waits under `uuid.registrationId`, consume that entry
  and push the device into the queue. -/
  | updateDeviceKeys (device : DeviceT)
  /-- The promise returned by `complete(response)` resolving: the
  `await resultQueue.shift()` on line 325 yields the queue's head. -/
  | completeResolved (queueId : Nat) (device : DeviceT)
  deriving DecidableEq

/-- One step of the provisioning rendezvous; `none` when the event cannot
fire in the state (a failed assertion, or a shift that cannot yield). -/
def pStep (s : PState) : PEvent → Option PState
  | PEvent.getProvisioningResponse code =>
    let q := s.nextQueueId
    some { s with
      nextQueueId := q + 1
      resultQueues := mapSet q (s.cfgTimeout, []) s.resultQueues
      byCode := mapSet code q s.byCode }
  | PEvent.provisionDevice code device =>
    match mapGet code s.byCode with
    | none => none
    | some q =>
      some { s with
        byCode := mapDelete code s.byCode
        byKey := mapSet (deviceKey device) q s.byKey }
  | PEvent.updateDeviceKeys device =>
    match mapGet (deviceKey device) s.byKey with
    | none => some { s with updatedKeys := device :: s.updatedKeys }
    | some q =>
      match mapGet q s.resultQueues with
      | none => none
      | some (t, items) =>
        some { s with
          updatedKeys := device :: s.updatedKeys
          byKey := mapDelete (deviceKey device) s.byKey
          resultQueues := mapSet q (t, items ++ [device]) s.resultQueues }
  | PEvent.completeResolved queueId device =>
    match mapGet queueId s.resultQueues with
    | none => none
    | some (t, items) =>
      match items with
      | [] => none
      | d :: rest =>
        if d = device then
          some { s with resultQueues := mapSet queueId (t, rest) s.resultQueues }
        else
          none

/-- Run a trace of provisioning events. -/
def pRun : PState → List PEvent → Option PState
  | s, [] => some s
  | s, e :: rest =>
    match pStep s e with
    | none => none
    | some s1 => pRun s1 rest

/-- Every device sitting in some result queue has had its keys uploaded. -/
def QueuedKeysUpdated (s : PState) : Prop :=
  ∀ q t items, mapGet q s.resultQueues = some (t, items) →
    ∀ d ∈ items, d ∈ s.updatedKeys

end MockSignal

namespace MockSignal

theorem mapGet_mapSet_self [DecidableEq κ] (k : κ) (v : α)
    (m : List (κ × α)) : mapGet k (mapSet k v m) = some v := by
  simp [mapGet, mapSet, List.find?]

theorem mapGet_filter_ne [DecidableEq κ] {k k' : κ} (h : ¬ k = k')
    (m : List (κ × α)) :
    mapGet k (m.filter (fun p => ¬(p.1 = k'))) = mapGet k m := by
  induction m with
  | nil => rfl
  | cons p rest ih =>
    unfold mapGet at ih ⊢
    rw [List.filter_cons]
    by_cases hp : p.1 = k'
    · have e1 : (decide ¬(p.1 = k')) = false := by simp [hp]
      have hpk : ¬ p.1 = k := fun hk => h (hk ▸ hp)
      have e2 : (decide (p.1 = k)) = false := by simp [hpk]
      rw [e1, if_neg (by simp)]
      rw [List.find?_cons, e2]
      exact ih
    · have e1 : (decide ¬(p.1 = k')) = true := by simp [hp]
      rw [e1, if_pos rfl]
      rw [List.find?_cons, List.find?_cons]
      cases e2 : decide (p.1 = k) with
      | true => rfl
      | false => exact ih

theorem mapGet_mapSet [DecidableEq κ] (k k' : κ) (v : α)
    (m : List (κ × α)) :
    mapGet k (mapSet k' v m) =
      if k = k' then some v else mapGet k m := by
  by_cases h : k = k'
  · subst h
    simp [mapGet_mapSet_self]
  · rw [if_neg h]
    have hne : ¬ (k' = k) := fun hk => h hk.symm
    unfold mapSet
    unfold mapGet
    simp only [List.find?_cons]
    have hd : (decide ((k', v).1 = k)) = false := by simpa using hne
    rw [hd]
    exact mapGet_filter_ne h m

theorem mapGet_mapDelete_self [DecidableEq κ] (k : κ)
    (m : List (κ × α)) : mapGet k (mapDelete k m) = none := by
  unfold mapGet mapDelete
  rw [List.find?_eq_none.mpr]
  · rfl
  · intro p hp
    have := (List.mem_filter.mp hp).2
    simpa using this

/-- C4: a username-reservation body parses exactly when `usernameHashes`
has between 1 and 20 elements; length 0 and length 21 are rejected with a
422 validation failure by the surrounding handler. -/
theorem usernameReservation_parse_iff (usernameHashes : List String) :
    (UsernameReservationSchema.parse usernameHashes).isSome ↔
      1 ≤ usernameHashes.length ∧ usernameHashes.length ≤ 20 := by
  unfold UsernameReservationSchema.parse
  split <;> simp_all

/-- C5: a group-creation body parses exactly when the submitted version is
literally 0 and the members array is non-empty, so every accepted group
creation starts at version 0. -/
theorem groupState_parse_iff (g : GroupStateBody) :
    (GroupStateSchema.parse g).isSome ↔
      g.version = 0 ∧ 1 ≤ g.members.length := by
  unfold GroupStateSchema.parse
  split <;> simp_all

theorem manifestShiftLoop_spec (afterVersion : Nat) :
    ∀ (items : List Nat) (version : Nat) (rest : List Nat),
      manifestShiftLoop (some afterVersion) items = some (version, rest) →
      afterVersion < version ∧
        ∃ skipped, items = skipped ++ version :: rest ∧
          ∀ v ∈ skipped, v ≤ afterVersion := by
  intro items
  induction items with
  | nil =>
    intro version rest h
    cases h
  | cons v tail ih =>
    intro version rest h
    unfold manifestShiftLoop at h
    by_cases hv : v ≤ afterVersion
    · rw [if_pos hv] at h
      obtain ⟨hlt, skipped, heq, hall⟩ := ih version rest h
      refine ⟨hlt, v :: skipped, by simp [heq], ?_⟩
      intro x hx
      rcases List.mem_cons.mp hx with h1 | h2
      · exact h1 ▸ hv
      · exact hall x h2
    · rw [if_neg hv] at h
      simp only [Option.some.injEq, Prod.mk.injEq] at h
      obtain ⟨h1, h2⟩ := h
      subst h1
      subst h2
      exact ⟨Nat.lt_of_not_le hv, [], rfl, by simp⟩

/-- C3: when `waitForStorageManifest` is called with a defined
`afterVersion` and returns, the version it observed is strictly greater
than `afterVersion`, and everything it consumed from the device's
manifest queue before it (the `skipped` prefix) was at most
`afterVersion`. -/
theorem waitForStorageManifest_strictly_after (s : ServerSt)
    (device : DeviceT) (afterVersion version : Nat) (s2 : ServerSt)
    (h : Server.waitForStorageManifest s device (some afterVersion) =
      some (version, s2)) :
    afterVersion < version ∧
      ∃ skipped, (∀ v ∈ skipped, v ≤ afterVersion) ∧
        manifestItems device.uuid s =
          skipped ++ version :: manifestItems device.uuid s2 := by
  unfold Server.waitForStorageManifest at h
  cases hq : mapGet device.uuid s.manifestQueueByUuid with
  | none =>
    rw [hq] at h
    simp [Server.createQueue, createQueueCfg, manifestShiftLoop] at h
  | some q =>
    rw [hq] at h
    simp only [] at h
    cases hloop : manifestShiftLoop (some afterVersion) q.items with
    | none =>
      rw [hloop] at h
      cases h
    | some pr =>
      obtain ⟨v0, rest⟩ := pr
      rw [hloop] at h
      simp only [Option.some.injEq, Prod.mk.injEq] at h
      obtain ⟨rfl, rfl⟩ := h
      obtain ⟨hlt, skipped, heq, hall⟩ :=
        manifestShiftLoop_spec afterVersion q.items _ _ hloop
      refine ⟨hlt, skipped, hall, ?_⟩
      unfold manifestItems
      rw [hq]
      simp only [mapGet_mapSet_self]
      exact heq

/-- Manifest queue for the C3 witness: versions 1, 2, 5 queued for the
uuid of `waitWitnessDevice`. -/
def waitWitnessServer : ServerSt :=
  { config := { timeout := 60000 }
    httpsPort := none
    emptyAttachment := none
    blobStore := []
    primaryDevices := []
    knownNumbers := []
    provisionQueue := { timeout := 60000, items := [] }
    manifestQueueByUuid := [(("aci-w3"), { timeout := 60000, items := [1, 2, 5] })] }

/-- Device for the C3 witness. -/
def waitWitnessDevice : DeviceT :=
  { uuid := "aci-w3", pni := "pni-w3", number := "+13105550100"
    deviceId := 1, registrationId := 11 }

/-- The C3 witness server after the wait consumed versions 1, 2 and 5. -/
def waitWitnessServer2 : ServerSt :=
  { waitWitnessServer with
    manifestQueueByUuid := [(("aci-w3"), { timeout := 60000, items := [] })] }

/-- Witness for C3: waiting with `afterVersion = 2` on the queue
`[1, 2, 5]` observes version 5 after skipping 1 and 2. -/
theorem waitForStorageManifest_strictly_after_witness :
    2 < 5 ∧
      ∃ skipped, (∀ v ∈ skipped, v ≤ 2) ∧
        manifestItems waitWitnessDevice.uuid waitWitnessServer =
          skipped ++ 5 :: manifestItems waitWitnessDevice.uuid waitWitnessServer2 :=
  waitForStorageManifest_strictly_after waitWitnessServer waitWitnessDevice
    2 5 waitWitnessServer2 (by decide)

theorem generateNumber_fresh :
    ∀ (draws : List String) (s : ServerSt) (n : String) (s1 : ServerSt),
      Server.generateNumber draws s = some (n, s1) →
      n ∉ s.knownNumbers ∧ s1.knownNumbers = n :: s.knownNumbers ∧
        s1.emptyAttachment = s.emptyAttachment := by
  intro draws
  induction draws with
  | nil =>
    intro s n s1 h
    cases h
  | cons c rest ih =>
    intro s n s1 h
    unfold Server.generateNumber at h
    by_cases hc : c ∈ s.knownNumbers
    · rw [if_pos hc] at h
      exact ih s n s1 h
    · rw [if_neg hc] at h
      simp only [Option.some.injEq, Prod.mk.injEq] at h
      obtain ⟨h1, h2⟩ := h
      subst h1
      subst h2
      exact ⟨hc, rfl, rfl⟩

theorem createPrimaryDevice_number (s : ServerSt) (profileName : String)
    (contacts : List PrimaryDeviceT) (fresh : FreshIds)
    (p : PrimaryDeviceT) (s1 : ServerSt)
    (h : Server.createPrimaryDevice s profileName contacts fresh =
      some (p, s1)) :
    p.device.number ∉ s.knownNumbers ∧
      s1.knownNumbers = p.device.number :: s.knownNumbers := by
  unfold Server.createPrimaryDevice at h
  cases hg : Server.generateNumber fresh.numberDraws s with
  | none =>
    rw [hg] at h
    cases h
  | some pr =>
    obtain ⟨number, sg⟩ := pr
    rw [hg] at h
    simp only [] at h
    obtain ⟨hfresh, hknown, _⟩ :=
      generateNumber_fresh fresh.numberDraws s number sg hg
    cases he : sg.emptyAttachment with
    | none =>
      rw [he] at h
      cases h
    | some ea =>
      rw [he] at h
      simp only [Option.some.injEq, Prod.mk.injEq] at h
      obtain ⟨rfl, rfl⟩ := h
      exact ⟨hfresh, hknown⟩

theorem runCreates_fresh :
    ∀ (calls : List CreateCall) (s : ServerSt),
      (runCreates s calls).Nodup ∧
        ∀ n ∈ runCreates s calls, n ∉ s.knownNumbers := by
  intro calls
  induction calls with
  | nil =>
    intro s
    exact ⟨List.nodup_nil, by simp [runCreates]⟩
  | cons c rest ih =>
    intro s
    unfold runCreates
    cases hc : Server.createPrimaryDevice s c.profileName c.contacts c.fresh with
    | none => exact ih s
    | some pr =>
      obtain ⟨p, s1⟩ := pr
      obtain ⟨hfresh, hknown⟩ :=
        createPrimaryDevice_number s c.profileName c.contacts c.fresh p s1 hc
      obtain ⟨hnd, hmem⟩ := ih s1
      constructor
      · refine List.nodup_cons.mpr ⟨?_, hnd⟩
        intro hmem2
        have hnot := hmem _ hmem2
        rw [hknown] at hnot
        exact hnot (List.mem_cons_self _ _)
      · intro n hn
        rcases List.mem_cons.mp hn with h1 | h2
        · exact h1 ▸ hfresh
        · have hnot := hmem n h2
          rw [hknown] at hnot
          intro hns
          exact hnot (List.mem_cons_of_mem _ hns)

/-- C6: across any sequence of `createPrimaryDevice` calls, the generated
E164 numbers are pairwise distinct: `generateNumber` only returns a number
absent from `knownNumbers` and records it there, so no number repeats
within the process lifetime. -/
theorem createPrimaryDevice_numbers_distinct (s : ServerSt)
    (calls : List CreateCall) : (runCreates s calls).Nodup :=
  (runCreates_fresh calls s).1

/-- C7: `listen` encrypts a zero-length buffer, stores the blob in the CDN
store, and records the pointer as `emptyAttachment`; any
`createPrimaryDevice` performed on a state whose `emptyAttachment` is that
pointer hands it to the new primary device as its `groups` attachment, and
leaves `emptyAttachment` untouched for later creations. -/
theorem emptyAttachment_preallocated (s s1 t t1 : ServerSt) (port : Nat)
    (emptyCDNKey : String) (p : AttachmentPointer) (profileName : String)
    (contacts : List PrimaryDeviceT) (fresh : FreshIds)
    (prim : PrimaryDeviceT)
    (hl : Server.listen s port emptyCDNKey = Except.ok s1)
    (hp : t.emptyAttachment = some p)
    (hc : Server.createPrimaryDevice t profileName contacts fresh =
      some (prim, t1)) :
    s1.emptyAttachment =
        some (attachmentToPointer emptyCDNKey (encryptAttachment [])) ∧
      mapGet emptyCDNKey s1.blobStore = some (encryptAttachment []).blob ∧
      prim.groups = p ∧
      t1.emptyAttachment = t.emptyAttachment := by
  unfold Server.listen at hl
  by_cases hport : s.httpsPort.isSome
  · rw [if_pos hport] at hl
    cases hl
  · rw [if_neg hport] at hl
    simp only [Except.ok.injEq] at hl
    subst hl
    refine ⟨rfl, by simp only [mapGet_mapSet_self], ?_, ?_⟩
    · unfold Server.createPrimaryDevice at hc
      cases hg : Server.generateNumber fresh.numberDraws t with
      | none =>
        rw [hg] at hc
        cases hc
      | some pr =>
        obtain ⟨number, tg⟩ := pr
        rw [hg] at hc
        simp only [] at hc
        obtain ⟨_, _, hea⟩ :=
          generateNumber_fresh fresh.numberDraws t number tg hg
        rw [hea, hp] at hc
        simp only [Option.some.injEq, Prod.mk.injEq] at hc
        obtain ⟨rfl, rfl⟩ := hc
        rfl
    · unfold Server.createPrimaryDevice at hc
      cases hg : Server.generateNumber fresh.numberDraws t with
      | none =>
        rw [hg] at hc
        cases hc
      | some pr =>
        obtain ⟨number, tg⟩ := pr
        rw [hg] at hc
        simp only [] at hc
        obtain ⟨_, _, hea⟩ :=
          generateNumber_fresh fresh.numberDraws t number tg hg
        rw [hea, hp] at hc
        simp only [Option.some.injEq, Prod.mk.injEq] at hc
        obtain ⟨rfl, rfl⟩ := hc
        exact hp.symm

/-- Witness server for C7 before `listen`: a freshly constructed server. -/
def preListenServer : ServerSt :=
  mkServer { timeout := none }

/-- Witness server for C7 after `listen` stored the empty attachment. -/
def postListenServer : ServerSt :=
  { preListenServer with
    blobStore := mapSet ("cdn-empty") (encryptAttachment []).blob
      preListenServer.blobStore
    emptyAttachment :=
      some (attachmentToPointer ("cdn-empty") (encryptAttachment []))
    httpsPort := some 8080 }

/-- Fresh identifiers for the C7 witness primary device. -/
def witnessFresh : FreshIds :=
  { numberDraws := ["+12025550101"]
    uuid := "aci-alice"
    pni := "pni-alice"
    registrationId := 42
    contactsCDNKey := "cdn-contacts" }

/-- The C7 witness primary device created after `listen`. -/
def witnessPrimary : PrimaryDeviceT :=
  { device :=
      { uuid := "aci-alice", pni := "pni-alice", number := "+12025550101"
        deviceId := 1, registrationId := 42 }
    profileName := "Alice"
    contacts :=
      attachmentToPointer ("cdn-contacts")
        (encryptAttachment (serializeContacts []))
    groups := attachmentToPointer ("cdn-empty") (encryptAttachment []) }

/-- The C7 witness server after creating the primary device. -/
def postCreateServer : ServerSt :=
  { postListenServer with
    blobStore :=
      mapSet ("cdn-contacts") (encryptAttachment (serializeContacts [])).blob
        postListenServer.blobStore
    knownNumbers := ["+12025550101"]
    primaryDevices :=
      mapSet ("aci-alice") witnessPrimary
        (mapSet ("+12025550101") witnessPrimary
          postListenServer.primaryDevices) }

/-- Witness for C7: on a fresh server, `listen` pre-allocates the empty
attachment and a primary created afterwards carries it as `groups`. -/
theorem emptyAttachment_preallocated_witness :
    postListenServer.emptyAttachment =
        some (attachmentToPointer ("cdn-empty") (encryptAttachment [])) ∧
      mapGet ("cdn-empty") postListenServer.blobStore =
        some (encryptAttachment []).blob ∧
      witnessPrimary.groups =
        attachmentToPointer ("cdn-empty") (encryptAttachment []) ∧
      postCreateServer.emptyAttachment = postListenServer.emptyAttachment :=
  emptyAttachment_preallocated preListenServer postListenServer
    postListenServer postCreateServer 8080 ("cdn-empty")
    (attachmentToPointer ("cdn-empty") (encryptAttachment [])) ("Alice") []
    witnessFresh witnessPrimary (by rfl) (by decide) (by decide)

/-- C8: the constructor resolves an omitted `timeout` to
`DEFAULT_API_TIMEOUT` (60000 ms) and every queue the server constructs
gets that configured timeout: the constructor's `provisionQueue`, the
manifest queue `onStorageManifestUpdate` installs, and the provisioning
result queue `getProvisioningResponse` installs. -/
theorem queues_use_configured_timeout (c : Config) (s : ServerSt)
    (device : DeviceT) (version : Nat) (ps ps1 : PState) (code : String)
    (hq : mapGet device.uuid s.manifestQueueByUuid = none)
    (hp : pStep ps (PEvent.getProvisioningResponse code) = some ps1) :
    DEFAULT_API_TIMEOUT = 60000 ∧
      (mkServer c).config.timeout = c.timeout.getD DEFAULT_API_TIMEOUT ∧
      (mkServer c).provisionQueue.timeout = (mkServer c).config.timeout ∧
      mapGet device.uuid
          (Server.onStorageManifestUpdate s device version).manifestQueueByUuid =
        some { timeout := s.config.timeout, items := [version] } ∧
      mapGet ps.nextQueueId ps1.resultQueues = some (ps.cfgTimeout, []) := by
  refine ⟨rfl, rfl, rfl, ?_, ?_⟩
  · unfold Server.onStorageManifestUpdate
    rw [hq]
    simp [Server.createQueue, createQueueCfg, PQueue.push, mapGet_mapSet_self]
  · unfold pStep at hp
    simp only [Option.some.injEq] at hp
    subst hp
    simp only [mapGet_mapSet_self]

/-- Witness state for C8: a fresh server built with the empty config. -/
def defaultConfigServer : ServerSt :=
  mkServer { timeout := none }

/-- Witness provisioning state for C8 after one
`getProvisioningResponse`. -/
def provisionedPState : PState :=
  { pInit 60000 with
    nextQueueId := 1
    resultQueues := [(0, (60000, []))]
    byCode := [(("code-c8"), 0)] }

/-- Device for the C8 witness. -/
def timeoutWitnessDevice : DeviceT :=
  { uuid := "aci-c8", pni := "pni-c8", number := "+14155550100"
    deviceId := 1, registrationId := 8 }

/-- Witness for C8: with the empty config the resolved timeout is 60000
and each constructed queue carries it. -/
theorem queues_use_configured_timeout_witness :
    DEFAULT_API_TIMEOUT = 60000 ∧
      (mkServer { timeout := none }).config.timeout =
        (({ timeout := none } : Config)).timeout.getD DEFAULT_API_TIMEOUT ∧
      (mkServer { timeout := none }).provisionQueue.timeout =
        (mkServer { timeout := none }).config.timeout ∧
      mapGet timeoutWitnessDevice.uuid
          (Server.onStorageManifestUpdate defaultConfigServer
            timeoutWitnessDevice 3).manifestQueueByUuid =
        some { timeout := defaultConfigServer.config.timeout, items := [3] } ∧
      mapGet (pInit 60000).nextQueueId provisionedPState.resultQueues =
        some ((pInit 60000).cfgTimeout, []) :=
  queues_use_configured_timeout { timeout := none } defaultConfigServer
    timeoutWitnessDevice 3 (pInit 60000) provisionedPState ("code-c8")
    (by decide) (by decide)

/-- C9: `handleMessage` delivers nothing and leaves the server unchanged
unless the target is the primary device (deviceId 1) of a registered
`PrimaryDevice`; an envelope is forwarded exactly when both conditions
hold, and then to the registered primary with the server unchanged. The
hypothesis is the function's own assertion that a non-sealed-sender
envelope has a source. -/
theorem handleMessage_only_registered_primary (s : ServerSt)
    (source : Option DeviceT) (envelopeType : EnvelopeType)
    (target : DeviceT) (encrypted : List Nat)
    (hsrc : source.isSome ∨ envelopeType = EnvelopeType.sealedSender) :
    ((¬(target.deviceId = PRIMARY_DEVICE_ID) ∨
        mapGet target.uuid s.primaryDevices = none) →
      Server.handleMessage s source envelopeType target encrypted =
        Except.ok (none, s)) ∧
    (∀ d s1, Server.handleMessage s source envelopeType target encrypted =
        Except.ok (some d, s1) →
      target.deviceId = PRIMARY_DEVICE_ID ∧
        mapGet target.uuid s.primaryDevices = some d.primary ∧ s1 = s) := by
  have hassert : ¬(source.isNone ∧ ¬(envelopeType = EnvelopeType.sealedSender)) := by
    rcases hsrc with h1 | h2
    · intro hcon
      rw [Option.isNone_iff_eq_none] at hcon
      rw [hcon.1] at h1
      cases h1
    · intro hcon
      exact hcon.2 h2
  unfold Server.handleMessage
  rw [if_neg hassert]
  constructor
  · intro hcond
    rcases hcond with h1 | h2
    · rw [if_pos h1]
    · by_cases hid : target.deviceId = PRIMARY_DEVICE_ID
      · rw [if_neg (by simpa using hid), h2]
      · rw [if_pos hid]
  · intro d s1 hdel
    by_cases hid : target.deviceId = PRIMARY_DEVICE_ID
    · rw [if_neg (by simpa using hid)] at hdel
      cases hget : mapGet target.uuid s.primaryDevices with
      | none =>
        rw [hget] at hdel
        cases hdel
      | some primary =>
        rw [hget] at hdel
        simp only [Except.ok.injEq, Prod.mk.injEq, Option.some.injEq] at hdel
        obtain ⟨hd1, hd2⟩ := hdel
        refine ⟨hid, ?_, hd2.symm⟩
        exact congrArg (fun x => some x.primary) hd1
    · rw [if_pos hid] at hdel
      cases hdel

/-- Witness server for C9: one registered primary device. -/
def routingServer : ServerSt :=
  { config := { timeout := 60000 }
    httpsPort := some 8080
    emptyAttachment := none
    blobStore := []
    primaryDevices := [(("aci-c9"), witnessPrimary)]
    knownNumbers := []
    provisionQueue := { timeout := 60000, items := [] }
    manifestQueueByUuid := [] }

/-- Witness target for C9: the registered primary device (deviceId 1). -/
def routingTarget : DeviceT :=
  { uuid := "aci-c9", pni := "pni-c9", number := "+16505550100"
    deviceId := 1, registrationId := 9 }

/-- Witness for C9: a sealed-sender envelope for the registered primary is
forwarded only to it, and non-primary targets are dropped. -/
theorem handleMessage_only_registered_primary_witness :
    ((¬(routingTarget.deviceId = PRIMARY_DEVICE_ID) ∨
        mapGet routingTarget.uuid routingServer.primaryDevices = none) →
      Server.handleMessage routingServer none EnvelopeType.sealedSender
          routingTarget [222, 173, 190, 239] =
        Except.ok (none, routingServer)) ∧
    (∀ d s1, Server.handleMessage routingServer none
          EnvelopeType.sealedSender routingTarget [222, 173, 190, 239] =
        Except.ok (some d, s1) →
      routingTarget.deviceId = PRIMARY_DEVICE_ID ∧
        mapGet routingTarget.uuid routingServer.primaryDevices =
          some d.primary ∧ s1 = routingServer) :=
  handleMessage_only_registered_primary routingServer none
    EnvelopeType.sealedSender routingTarget [222, 173, 190, 239]
    (Or.inr rfl)

/-- C10: `listen` on a listening server fails with `Already listening`
before touching any state, and `close` and `address` on a non-listening
server fail with `Not listening`; the error paths return before any
mutation, so the state is unchanged. -/
theorem lifecycle_listening_guards (s t : ServerSt) (port h : Nat)
    (emptyCDNKey : String)
    (hs : s.httpsPort = some h) (ht : t.httpsPort = none) :
    Server.listen s port emptyCDNKey = Except.error ("Already listening") ∧
      Server.close t = Except.error ("Not listening") ∧
      Server.address t = Except.error ("Not listening") := by
  refine ⟨?_, ?_, ?_⟩
  · unfold Server.listen
    rw [if_pos (by rw [hs]; rfl)]
  · unfold Server.close
    rw [ht]
  · unfold Server.address
    rw [ht]

/-- Witness for C10 at a listening and a fresh server. -/
theorem lifecycle_listening_guards_witness :
    Server.listen postListenServer 9090 ("cdn-second") =
        Except.error ("Already listening") ∧
      Server.close preListenServer = Except.error ("Not listening") ∧
      Server.address preListenServer = Except.error ("Not listening") :=
  lifecycle_listening_guards postListenServer preListenServer 9090 8080
    ("cdn-second") (by decide) (by decide)

theorem pRun_cons (s : PState) (e : PEvent) (l : List PEvent) :
    pRun s (e :: l) = match pStep s e with
      | none => none
      | some s1 => pRun s1 l := rfl

theorem pRun_append :
    ∀ (l1 l2 : List PEvent) (s : PState),
      pRun s (l1 ++ l2) =
        Option.bind (pRun s l1) (fun s1 => pRun s1 l2)
  | [], _, _ => rfl
  | e :: rest, l2, s => by
    rw [List.cons_append, pRun_cons, pRun_cons]
    cases pStep s e with
    | none => rfl
    | some s1 => exact pRun_append rest l2 s1

theorem pStep_preserves (s s1 : PState) (e : PEvent)
    (hinv : QueuedKeysUpdated s) (h : pStep s e = some s1) :
    QueuedKeysUpdated s1 := by
  cases e with
  | getProvisioningResponse code =>
    simp only [pStep, Option.some.injEq] at h
    subst h
    intro q t items hq d hd
    rw [mapGet_mapSet] at hq
    by_cases hq0 : q = s.nextQueueId
    · rw [if_pos hq0] at hq
      simp only [Option.some.injEq, Prod.mk.injEq] at hq
      rw [← hq.2] at hd
      cases hd
    · rw [if_neg hq0] at hq
      exact hinv q t items hq d hd
  | provisionDevice code device =>
    simp only [pStep] at h
    cases hm : mapGet code s.byCode with
    | none =>
      rw [hm] at h
      cases h
    | some q0 =>
      rw [hm] at h
      simp only [Option.some.injEq] at h
      subst h
      exact hinv
  | updateDeviceKeys device =>
    simp only [pStep] at h
    cases hm : mapGet (deviceKey device) s.byKey with
    | none =>
      rw [hm] at h
      simp only [Option.some.injEq] at h
      subst h
      intro q t items hq d hd
      exact List.mem_cons_of_mem _ (hinv q t items hq d hd)
    | some q0 =>
      rw [hm] at h
      simp only [] at h
      cases hq0 : mapGet q0 s.resultQueues with
      | none =>
        rw [hq0] at h
        cases h
      | some pr =>
        obtain ⟨t0, items0⟩ := pr
        rw [hq0] at h
        simp only [Option.some.injEq] at h
        subst h
        intro q t items hq d hd
        rw [mapGet_mapSet] at hq
        by_cases hqq : q = q0
        · rw [if_pos hqq] at hq
          simp only [Option.some.injEq, Prod.mk.injEq] at hq
          rw [← hq.2] at hd
          rcases List.mem_append.mp hd with h1 | h2
          · exact List.mem_cons_of_mem _ (hinv q0 t0 items0 hq0 d h1)
          · rcases List.mem_singleton.mp h2 with rfl
            exact List.mem_cons_self _ _
        · rw [if_neg hqq] at hq
          exact List.mem_cons_of_mem _ (hinv q t items hq d hd)
  | completeResolved queueId device =>
    simp only [pStep] at h
    cases hq0 : mapGet queueId s.resultQueues with
    | none =>
      rw [hq0] at h
      cases h
    | some pr =>
      obtain ⟨t0, items0⟩ := pr
      rw [hq0] at h
      simp only [] at h
      cases items0 with
      | nil => cases h
      | cons d0 rest =>
        simp only [] at h
        by_cases hd0 : d0 = device
        · rw [if_pos hd0] at h
          simp only [Option.some.injEq] at h
          subst h
          intro q t items hq d hd
          rw [mapGet_mapSet] at hq
          by_cases hqq : q = queueId
          · rw [if_pos hqq] at hq
            simp only [Option.some.injEq, Prod.mk.injEq] at hq
            rw [← hq.2] at hd
            exact hinv queueId t0 (d0 :: rest) hq0 d
              (List.mem_cons_of_mem _ hd)
          · rw [if_neg hqq] at hq
            exact hinv q t items hq d hd
        · rw [if_neg hd0] at h
          cases h

theorem pRun_preserves :
    ∀ (l : List PEvent) (s s1 : PState),
      QueuedKeysUpdated s → pRun s l = some s1 → QueuedKeysUpdated s1
  | [], s, s1, hinv, h => by
    simp only [pRun, Option.some.injEq] at h
    exact h ▸ hinv
  | e :: rest, s, s1, hinv, h => by
    unfold pRun at h
    cases hstep : pStep s e with
    | none =>
      rw [hstep] at h
      cases h
    | some s2 =>
      rw [hstep] at h
      exact pRun_preserves rest s2 s1 (pStep_preserves s s2 e hinv hstep) h

theorem pStep_updatedKeys (s s1 : PState) (e : PEvent) (d : DeviceT)
    (h : pStep s e = some s1) (hd : d ∈ s1.updatedKeys) :
    d ∈ s.updatedKeys ∨ e = PEvent.updateDeviceKeys d := by
  cases e with
  | getProvisioningResponse code =>
    simp only [pStep, Option.some.injEq] at h
    subst h
    exact Or.inl hd
  | provisionDevice code device =>
    simp only [pStep] at h
    cases hm : mapGet code s.byCode with
    | none =>
      rw [hm] at h
      cases h
    | some q0 =>
      rw [hm] at h
      simp only [Option.some.injEq] at h
      subst h
      exact Or.inl hd
  | updateDeviceKeys device =>
    simp only [pStep] at h
    cases hm : mapGet (deviceKey device) s.byKey with
    | none =>
      rw [hm] at h
      simp only [Option.some.injEq] at h
      subst h
      rcases List.mem_cons.mp hd with h1 | h2
      · exact Or.inr (by rw [h1])
      · exact Or.inl h2
    | some q0 =>
      rw [hm] at h
      simp only [] at h
      cases hq0 : mapGet q0 s.resultQueues with
      | none =>
        rw [hq0] at h
        cases h
      | some pr =>
        obtain ⟨t0, items0⟩ := pr
        rw [hq0] at h
        simp only [Option.some.injEq] at h
        subst h
        rcases List.mem_cons.mp hd with h1 | h2
        · exact Or.inr (by rw [h1])
        · exact Or.inl h2
  | completeResolved queueId device =>
    simp only [pStep] at h
    cases hq0 : mapGet queueId s.resultQueues with
    | none =>
      rw [hq0] at h
      cases h
    | some pr =>
      obtain ⟨t0, items0⟩ := pr
      rw [hq0] at h
      simp only [] at h
      cases items0 with
      | nil => cases h
      | cons d0 rest =>
        simp only [] at h
        by_cases hd0 : d0 = device
        · rw [if_pos hd0] at h
          simp only [Option.some.injEq] at h
          subst h
          exact Or.inl hd
        · rw [if_neg hd0] at h
          cases h

theorem pRun_updatedKeys_mem :
    ∀ (l : List PEvent) (s s1 : PState) (d : DeviceT),
      pRun s l = some s1 → d ∈ s1.updatedKeys →
      d ∈ s.updatedKeys ∨ PEvent.updateDeviceKeys d ∈ l
  | [], s, s1, d, h, hd => by
    simp only [pRun, Option.some.injEq] at h
    exact Or.inl (h ▸ hd)
  | e :: rest, s, s1, d, h, hd => by
    unfold pRun at h
    cases hstep : pStep s e with
    | none =>
      rw [hstep] at h
      cases h
    | some s2 =>
      rw [hstep] at h
      rcases pRun_updatedKeys_mem rest s2 s1 d h hd with h1 | h2
      · rcases pStep_updatedKeys s s2 e d hstep h1 with h3 | h4
        · exact Or.inl h3
        · exact Or.inr (h4 ▸ List.mem_cons_self _ _)
      · exact Or.inr (List.mem_cons_of_mem _ h2)

theorem pInit_inv (cfgTimeout : Nat) : QueuedKeysUpdated (pInit cfgTimeout) := by
  intro q t items hq d hd
  cases hq

/-- C1: in any trace of the provisioning rendezvous that executes to
completion, a `complete(response)` promise resolving with device `D`
(shifting `D` out of a result queue) is strictly preceded by the
`updateDeviceKeys` run for `D`: the result queue is fulfilled inside
`updateDeviceKeys` and only there. -/
theorem complete_resolves_only_after_updateDeviceKeys
    (cfgTimeout : Nat) (pre post : List PEvent) (queueId : Nat)
    (device : DeviceT) (s : PState)
    (h : pRun (pInit cfgTimeout)
        (pre ++ PEvent.completeResolved queueId device :: post) = some s) :
    PEvent.updateDeviceKeys device ∈ pre := by
  rw [pRun_append] at h
  cases hpre : pRun (pInit cfgTimeout) pre with
  | none =>
    rw [hpre] at h
    cases h
  | some s1 =>
    rw [hpre] at h
    replace h : (match pStep s1 (PEvent.completeResolved queueId device) with
      | none => none
      | some s2 => pRun s2 post) = some s := h
    cases hstep : pStep s1 (PEvent.completeResolved queueId device) with
    | none =>
      rw [hstep] at h
      cases h
    | some s2 =>
      have hinv : QueuedKeysUpdated s1 :=
        pRun_preserves pre (pInit cfgTimeout) s1 (pInit_inv cfgTimeout) hpre
      have hmem : device ∈ s1.updatedKeys := by
        simp only [pStep] at hstep
        cases hq0 : mapGet queueId s1.resultQueues with
        | none =>
          rw [hq0] at hstep
          cases hstep
        | some pr =>
          obtain ⟨t0, items0⟩ := pr
          rw [hq0] at hstep
          cases items0 with
          | nil => cases hstep
          | cons d0 rest =>
            simp only [] at hstep
            by_cases hd0 : d0 = device
            · exact hinv queueId t0 (d0 :: rest) hq0 device
                (hd0 ▸ List.mem_cons_self _ _)
            · rw [if_neg hd0] at hstep
              cases hstep
      rcases pRun_updatedKeys_mem pre (pInit cfgTimeout) s1 device hpre hmem
        with h1 | h2
      · cases h1
      · exact h2

/-- Device for the C1 witness: a secondary device being linked. -/
def linkedDevice : DeviceT :=
  { uuid := "aci-bob", pni := "pni-bob", number := "+15555550111"
    deviceId := 2, registrationId := 7 }

/-- The C1 witness trace before the `complete` promise resolves: a
provisioning response is issued, the device registers with the code, and
its keys are uploaded. -/
def linkTracePre : List PEvent :=
  [PEvent.getProvisioningResponse ("code-bob"),
    PEvent.provisionDevice ("code-bob") linkedDevice,
    PEvent.updateDeviceKeys linkedDevice]

/-- Final state of the C1 witness trace. -/
def linkTraceFinal : PState :=
  { cfgTimeout := 60000
    nextQueueId := 1
    resultQueues := [(0, (60000, []))]
    byCode := []
    byKey := []
    updatedKeys := [linkedDevice] }

/-- Witness for C1: in the concrete linking trace, `updateDeviceKeys` for
the linked device occurs before the `complete` promise resolves. -/
theorem complete_resolves_only_after_updateDeviceKeys_witness :
    PEvent.updateDeviceKeys linkedDevice ∈ linkTracePre :=
  complete_resolves_only_after_updateDeviceKeys 60000 linkTracePre []
    0 linkedDevice linkTraceFinal (by decide)

theorem filter_mapSet_self_length [DecidableEq κ] (k : κ) (v : α)
    (m : List (κ × α)) :
    ((mapSet k v m).filter (fun p => p.1 = k)).length = 1 := by
  have hnil : (m.filter (fun p => ¬(p.1 = k))).filter
      (fun p => (p.1 = k)) = [] := by
    induction m with
    | nil => rfl
    | cons p rest ih =>
      rw [List.filter_cons]
      by_cases hp : p.1 = k
      · rw [if_neg (by simp [hp])]
        exact ih
      · rw [if_pos (by simp [hp])]
        rw [List.filter_cons, if_neg (by simp [hp])]
        exact ih
  unfold mapSet
  rw [List.filter_cons, if_pos (by simp), hnil]
  rfl

/-- C2: `getProvisioningResponse` installs exactly one
`provisionResultQueueByCode` entry for the issued code; a successful
`provisionDevice` with that code removes the entry, so a second
`provisionDevice` with the same code fails its assertion that the queue
exists. -/
theorem provisioningCode_single_use (s s1 s2 : PState) (code : String)
    (d d2 : DeviceT)
    (_hfresh : mapGet code s.byCode = none)
    (h1 : pStep s (PEvent.getProvisioningResponse code) = some s1)
    (h2 : pStep s1 (PEvent.provisionDevice code d) = some s2) :
    (s1.byCode.filter (fun p => p.1 = code)).length = 1 ∧
      mapGet code s2.byCode = none ∧
      pStep s2 (PEvent.provisionDevice code d2) = none := by
  simp only [pStep, Option.some.injEq] at h1
  subst h1
  simp only [pStep] at h2
  rw [mapGet_mapSet_self] at h2
  simp only [Option.some.injEq] at h2
  subst h2
  refine ⟨filter_mapSet_self_length code s.nextQueueId s.byCode, ?_, ?_⟩
  · exact mapGet_mapDelete_self code _
  · simp only [pStep]
    rw [mapGet_mapDelete_self code _]

/-- State of the C2 witness after issuing the provisioning response. -/
def codeIssuedState : PState :=
  { pInit 60000 with
    nextQueueId := 1
    resultQueues := [(0, (60000, []))]
    byCode := [(("code-c2"), 0)] }

/-- State of the C2 witness after the device consumed the code. -/
def codeConsumedState : PState :=
  { codeIssuedState with
    byCode := []
    byKey := [(("aci-bob.7"), 0)] }

/-- Witness for C2: in a concrete run, the issued code is bound exactly
once, consumed by `provisionDevice`, and a second `provisionDevice` with
the same code fails. -/
theorem provisioningCode_single_use_witness :
    (codeIssuedState.byCode.filter (fun p => p.1 = ("code-c2"))).length = 1 ∧
      mapGet ("code-c2") codeConsumedState.byCode = none ∧
      pStep codeConsumedState
        (PEvent.provisionDevice ("code-c2") linkedDevice) = none :=
  provisioningCode_single_use (pInit 60000) codeIssuedState
    codeConsumedState ("code-c2") linkedDevice linkedDevice
    (by decide) (by decide) (by decide)

end MockSignal
